import Mathlib

/-!
Shallow embedding of the yobecs ECS core (`src/yobecs`): the slot allocator
(`AccessMatrix`), the dense per-type component stores (`Component`), systems
(`ESystem`) and the orchestrator (`Model`).

Conventions of the embedding:
* A slot's identity (a stable address in C++) is a natural-number slot id, in
  allocation order; `Entity` is that id (`WrappedHandle` adds only
  equality/ordering, which `Nat` already has).
* `std::size_t` offsets/accessors are `Nat`, with the absent sentinel
  `maxAccessor = 2^64 - 1` mirroring `std::numeric_limits<std::size_t>::max()`.
* A component type `T` among the declared pack `Ts...` is its type index
  `t < M` (the compile-time `typeId_<T>`); all component value types are a
  single type parameter `V`, which loses nothing the claims need since the
  stores for distinct types are independent.
* `std::bitset` signatures are `Nat` bitmasks; `std::set<Entity>` is a
  strictly sorted duplicate-free list maintained by `setInsert`/`List.erase`;
  `std::map<SystemHandle, SystemPtr_>` is an association list whose keys come
  from a fresh counter (modelling distinct heap pointers). Iteration order of
  the systems map never matters for the properties below, because every
  per-system update is independent of the others.
* The `ProcessF` callback stored in a `System` and `Model::process` are not
  modelled: no property below depends on them.
-/

namespace Yobecs

/-- An entity is identified by its slot's stable location (a slot id). -/
abbrev Entity := Nat

/-- The absent sentinel, `std::numeric_limits<std::size_t>::max()`. -/
def maxAccessor : Nat := 2 ^ 64 - 1

/-- `defaultAccessors_`: a slot row with every accessor absent. -/
def defaultAccessors (M : Nat) : List Nat := List.replicate M maxAccessor

/-- `AccessMatrix<N, M>`: `acc` has one row (an array of `M` accessors) per
allocated slot id, in allocation order; `available` is the free-list deque,
front of the deque first. -/
structure AccessMatrix (N M : Nat) where
  acc : List (List Nat)
  available : List Entity
deriving Repr, DecidableEq

variable {N M : Nat} {V : Type}

/-- `AccessMatrix::get`: read the `p`-th access point of slot `i`. -/
def AccessMatrix.get (am : AccessMatrix N M) (i : Entity) (p : Nat) : Nat :=
  (am.acc.getD i []).getD p maxAccessor

/-- Write counterpart of `AccessMatrix::get` used as an lvalue
(`get(i, p) = v`). -/
def AccessMatrix.setAcc (am : AccessMatrix N M) (i : Entity) (p v : Nat) :
    AccessMatrix N M :=
  { am with acc := am.acc.set i ((am.acc.getD i []).set p v) }

/-- `AccessMatrix::has`: slot `i` has access point `p` iff it is not the
sentinel. -/
def AccessMatrix.has (am : AccessMatrix N M) (i : Entity) (p : Nat) : Bool :=
  am.get i p != maxAccessor

/-- `AccessMatrix::reset`: clear the `p`-th access point of slot `i`. -/
def AccessMatrix.reset (am : AccessMatrix N M) (i : Entity) (p : Nat) :
    AccessMatrix N M :=
  am.setAcc i p maxAccessor

/-- `AccessMatrix::expand_`: append a slab of `N` all-absent slots and push
their ids onto the front of the free deque in slot order (so the slab's first
slot ends up at the back of the deque). -/
def AccessMatrix.expand (am : AccessMatrix N M) : AccessMatrix N M :=
  { acc := am.acc ++ List.replicate N (defaultAccessors M),
    available := (List.range' am.acc.length N).reverse ++ am.available }

/-- `AccessMatrix::make`: expand when the free deque is empty, then pop the
slot at the back of the deque. -/
def AccessMatrix.make (am : AccessMatrix N M) : AccessMatrix N M × Entity :=
  let am' := if am.available.isEmpty then am.expand else am
  ({ am' with available := am'.available.dropLast }, am'.available.getLastD 0)

/-- `AccessMatrix::free`: reset slot `i` to all-absent and push it to the back
of the free deque. -/
def AccessMatrix.free (am : AccessMatrix N M) (i : Entity) : AccessMatrix N M :=
  { acc := am.acc.set i (defaultAccessors M),
    available := am.available ++ [i] }

/-- `Component<T, E>`: parallel dense arrays of values and owners. -/
structure Component (V : Type) where
  data : List V
  owners : List Entity
deriving Repr, DecidableEq

instance : Inhabited (Component V) := ⟨⟨[], []⟩⟩

/-- `Component::insert`: append value and owner, return the new offset
(the size before the append). -/
def Component.insert (c : Component V) (e : Entity) (val : V) :
    Component V × Nat :=
  (⟨c.data ++ [val], c.owners ++ [e]⟩, c.data.length)

/-- `Component::remove`: copy the back of each array into offset `a`, shrink
both by one, and return the owner now recorded at `a` (the old back owner). -/
def Component.remove [Inhabited V] (c : Component V) (a : Nat) :
    Component V × Entity :=
  let e := c.owners.getLastD 0
  (⟨(c.data.set a (c.data.getLastD default)).dropLast,
    (c.owners.set a e).dropLast⟩, e)

/-- `Component::access`: read the value at offset `a`. -/
def Component.access [Inhabited V] (c : Component V) (a : Nat) : V :=
  c.data.getD a default

/-- Ordered-set insertion into a strictly sorted list (`std::set::insert`). -/
def setInsert (x : Entity) : List Entity → List Entity
  | [] => [x]
  | y :: ys =>
    if x < y then x :: y :: ys
    else if x = y then y :: ys
    else y :: setInsert x ys

/-- `System<S, E, M>` without its process callback: an immutable signature
bitmask plus the working set of entities. -/
structure ESystem where
  signature : Nat
  entities : List Entity
deriving Repr, DecidableEq

instance : Inhabited ESystem := ⟨⟨0, []⟩⟩

/-- `System::insert`: set-semantics membership insert. -/
def ESystem.insert (s : ESystem) (e : Entity) : ESystem :=
  ⟨s.signature, setInsert e s.entities⟩

/-- `System::remove`: set-semantics membership erase. -/
def ESystem.remove (s : ESystem) (e : Entity) : ESystem :=
  ⟨s.signature, s.entities.erase e⟩

/-- `std::map::erase` by key on an association list with unique keys. -/
def mapErase (k : Nat) : List (Nat × ESystem) → List (Nat × ESystem)
  | [] => []
  | p :: rest => if p.1 = k then rest else p :: mapErase k rest

/-- `Model<N, Ts...>` with `M = sizeof...(Ts)` component types whose values
all live in `V`: the access matrix, the ordered spawned-entity set, one store
per type, and the registered-system map with its fresh-handle counter. -/
structure Model (N M : Nat) (V : Type) where
  am : AccessMatrix N M
  spawned : List Entity
  components : List (Component V)
  systems : List (Nat × ESystem)
  nextHandle : Nat
deriving Repr

/-- A default-constructed `Model`: empty matrix, no entities, `M` empty
stores, no systems. -/
def Model.fresh (N M : Nat) (V : Type) : Model N M V :=
  ⟨⟨[], []⟩, [], List.replicate M ⟨[], []⟩, [], 0⟩

/-- `Model::computeSignature_(Entity)`: bit `t` set iff the entity has access
point `t`, folded over the declared types in order. -/
def Model.computeSignatureE (m : Model N M V) (e : Entity) : Nat :=
  (List.range M).foldl (fun s t => if m.am.has e t then s ||| (1 <<< t) else s) 0

/-- `Model::computeSignature_<Us...>()`: the union of the bits of the listed
type indices. -/
def computeSignatureTs (ts : List Nat) : Nat :=
  ts.foldl (fun s t => s ||| (1 <<< t)) 0

/-- `Model::insertInSystems_`: insert `e` into every system whose signature is
a subset of `s`. -/
def Model.insertInSystems (m : Model N M V) (e : Entity) (s : Nat) :
    Model N M V :=
  { m with systems := m.systems.map (fun p =>
      if s &&& p.2.signature = p.2.signature then (p.1, p.2.insert e) else p) }

/-- `Model::removeFromSystems_`: remove `e` from every system whose signature
is a subset of `s`. -/
def Model.removeFromSystems (m : Model N M V) (e : Entity) (s : Nat) :
    Model N M V :=
  { m with systems := m.systems.map (fun p =>
      if s &&& p.2.signature = p.2.signature then (p.1, p.2.remove e) else p) }

/-- `Model::createEntity`: allocate a slot, mark it spawned, and register it
with the systems satisfied by the empty signature. -/
def Model.createEntity (m : Model N M V) : Model N M V × Entity :=
  let r := m.am.make
  let m' := { m with am := r.1, spawned := setInsert r.2 m.spawned }
  (m'.insertInSystems r.2 0, r.2)

/-- `Model::insert<T>`: store the value, record the returned offset in the
slot's accessor for `t`, then re-register against every system using the
entity's recomputed signature. -/
def Model.insert (m : Model N M V) (t : Nat) (e : Entity) (val : V) :
    Model N M V :=
  let r := (m.components.getD t default).insert e val
  let m' := { m with components := m.components.set t r.1,
                     am := m.am.setAcc e t r.2 }
  m'.insertInSystems e (m'.computeSignatureE e)

/-- `Model::remove<T>`: swap-remove from the store, clear the slot's accessor
for `t`, patch the relocated owner's accessor when it is a different entity,
then call `removeFromSystems_` with the singleton signature of `t`. -/
def Model.remove [Inhabited V] (m : Model N M V) (t : Nat) (e : Entity) :
    Model N M V :=
  let a := m.am.get e t
  let r := (m.components.getD t default).remove a
  let m1 := { m with components := m.components.set t r.1 }
  let m2 := { m1 with am := m1.am.reset e t }
  let m3 := if r.2 ≠ e then { m2 with am := m2.am.setAcc r.2 t a } else m2
  m3.removeFromSystems e (1 <<< t)

/-- `Model::access<T>`: resolve the slot's accessor for `t` into the store. -/
def Model.access [Inhabited V] (m : Model N M V) (t : Nat) (e : Entity) : V :=
  (m.components.getD t default).access (m.am.get e t)

/-- `Model::checkedRemove_<T>`: remove `t` from `e` only when present. -/
def Model.checkedRemove [Inhabited V] (m : Model N M V) (t : Nat) (e : Entity) :
    Model N M V :=
  if m.am.has e t then m.remove t e else m

/-- `Model::removeEntity`: checked-remove every declared type in declaration
order, free the slot, drop the entity from the spawned set, and call
`removeFromSystems_` with the empty signature. -/
def Model.removeEntity [Inhabited V] (m : Model N M V) (e : Entity) :
    Model N M V :=
  let m1 := (List.range M).foldl (fun m t => m.checkedRemove t e) m
  let m2 := { m1 with am := m1.am.free e, spawned := m1.spawned.erase e }
  m2.removeFromSystems e 0

/-- `Model::createSystem<Us...>`: build a system with the union signature of
`ts`, register it under a fresh handle, and seed its working set from every
currently spawned entity whose signature satisfies it. -/
def Model.createSystem (m : Model N M V) (ts : List Nat) : Model N M V × Nat :=
  let sSys := computeSignatureTs ts
  let hSys := m.nextHandle
  let sys := m.spawned.foldl
    (fun sys e => if m.computeSignatureE e &&& sSys = sSys then sys.insert e
                  else sys)
    ⟨sSys, []⟩
  ({ m with systems := m.systems ++ [(hSys, sys)], nextHandle := hSys + 1 },
   hSys)

/-- `Model::removeSystem`: erase the handle's entry from the system map. -/
def Model.removeSystem (m : Model N M V) (hSys : Nat) : Model N M V :=
  { m with systems := mapErase hSys m.systems }

/-! ### Helper lemmas about lists, `setInsert` and the fold shapes above -/

lemma getD_set_self {α : Type} [Inhabited α] (l : List α) (i : Nat) (x d : α)
    (h : i < l.length) : (l.set i x).getD i d = x := by
  simp [List.getD_eq_getElem?_getD, List.getElem?_set_self, h]

lemma getD_set_ne {α : Type} [Inhabited α] (l : List α) (i j : Nat) (x d : α)
    (h : i ≠ j) : (l.set i x).getD j d = l.getD j d := by
  simp [List.getD_eq_getElem?_getD, List.getElem?_set_ne h]

lemma getD_dropLast {α : Type} [Inhabited α] (l : List α) (i : Nat) (d : α)
    (h : i < l.length - 1) : l.dropLast.getD i d = l.getD i d := by
  simp [List.getD_eq_getElem?_getD, List.getElem?_dropLast, h,
    List.getElem?_eq_getElem (show i < l.length by omega)]

lemma getD_append_length {α : Type} [Inhabited α] (l : List α) (v d : α) :
    (l ++ [v]).getD l.length d = v := by
  simp [List.getD_eq_getElem?_getD]

lemma getLastD_eq_getD {α : Type} [Inhabited α] (l : List α) (d : α) :
    l.getLastD d = l.getD (l.length - 1) d := by
  simp [List.getD_eq_getElem?_getD, List.getLastD_eq_getLast?,
    List.getLast?_eq_getElem?]

lemma getD_nodup_ne {l : List Nat} (h : l.Nodup) {i j : Nat}
    (hi : i < l.length) (hj : j < l.length) (hne : i ≠ j) :
    l.getD i 0 ≠ l.getD j 0 := by
  simp only [List.getD_eq_getElem?_getD, List.getElem?_eq_getElem, hi, hj,
    Option.getD_some]
  exact fun hEq => hne (h.getElem_inj_iff.mp hEq)

lemma mem_setInsert (x y : Entity) (l : List Entity) :
    x ∈ setInsert y l ↔ x = y ∨ x ∈ l := by
  induction l with
  | nil => simp [setInsert]
  | cons z zs ih =>
    by_cases h1 : y < z
    · simp [setInsert, h1]
    · by_cases h2 : y = z
      · subst h2
        simp [setInsert, h1]
      · simp [setInsert, h1, h2, ih]; tauto

lemma setInsert_idem (x : Entity) (l : List Entity) :
    setInsert x (setInsert x l) = setInsert x l := by
  induction l with
  | nil => simp [setInsert]
  | cons y ys ih =>
    by_cases h1 : x < y
    · simp [setInsert, h1, lt_irrefl]
    · by_cases h2 : x = y
      · subst h2; simp [setInsert, h1]
      · simp [setInsert, h1, h2, ih]

lemma mapErase_of_not_mem (k : Nat) (l : List (Nat × ESystem))
    (h : ∀ p ∈ l, p.1 ≠ k) : mapErase k l = l := by
  induction l with
  | nil => rfl
  | cons p rest ih =>
    have hp : p.1 ≠ k := h p (List.mem_cons_self p rest)
    simp only [mapErase, if_neg hp]
    rw [ih (fun q hq => h q (List.mem_cons_of_mem p hq))]

lemma getD_defaultAccessors (p : Nat) :
    (defaultAccessors M).getD p maxAccessor = maxAccessor := by
  by_cases hp : p < M <;>
    simp [defaultAccessors, List.getD_eq_getElem?_getD, List.getElem?_replicate,
      hp]

/-- Any slot of a matrix obtained by `free e` followed immediately by `make`
(the slot handed back is `e` itself) has every accessor absent. -/
lemma has_after_free_make (am : AccessMatrix N M) (e : Entity) (p : Nat) :
    ((am.free e).make.1).has ((am.free e).make.2) p = false := by
  have hD : ((am.acc.set e (defaultAccessors M)).getD e []).getD p maxAccessor
      = maxAccessor := by
    by_cases h : e < am.acc.length
    · rw [getD_set_self _ _ _ _ h, getD_defaultAccessors]
    · have hnone : (am.acc.set e (defaultAccessors M))[e]? = none :=
        List.getElem?_eq_none (by simp only [List.length_set]; exact Nat.le_of_not_lt h)
      simp [List.getD_eq_getElem?_getD, hnone]
  have hne : (am.available ++ [e]).isEmpty = false := by simp
  rw [AccessMatrix.has, AccessMatrix.get]
  simp only [AccessMatrix.make, AccessMatrix.free, hne, Bool.false_eq_true,
    if_false]
  rw [List.getLastD_concat]
  simpa [List.getD_eq_getElem?_getD] using hD

lemma testBit_foldl_orbit (l : List Nat) (s : Nat) (g : Nat → Bool) (p : Nat) :
    (l.foldl (fun s t => if g t then s ||| (1 <<< t) else s) s).testBit p
      = (s.testBit p || (l.contains p && g p)) := by
  induction l generalizing s with
  | nil => simp
  | cons t ts ih =>
    rw [List.foldl_cons, ih]
    by_cases hp : p = t
    · subst hp
      by_cases hg : g p <;>
        simp [hg, Nat.testBit_or, Nat.one_shiftLeft, Nat.testBit_two_pow,
          Bool.or_assoc, Bool.or_comm]
    · have hp' : t ≠ p := fun h => hp h.symm
      by_cases hg : g t <;>
        simp [hg, Nat.testBit_or, Nat.one_shiftLeft, Nat.testBit_two_pow,
          hp, hp']

lemma computeSignatureE_testBit (m : Model N M V) (e : Entity) (p : Nat) :
    (m.computeSignatureE e).testBit p = (decide (p < M) && m.am.has e p) := by
  rw [Model.computeSignatureE, testBit_foldl_orbit]
  simp [List.mem_range]

lemma insert_row_e (m : Model N M V) (t : Nat) (e : Entity) (v : V) (p : Nat)
    (he : e < m.am.acc.length) :
    (m.insert t e v).am.get e p
      = ((m.am.acc.getD e []).set t
          ((m.components.getD t default).data.length)).getD p maxAccessor := by
  simp only [Model.insert, Model.insertInSystems, AccessMatrix.setAcc,
    AccessMatrix.get, Component.insert]
  rw [getD_set_self _ _ _ _ he]

lemma remove_am [Inhabited V] (m : Model N M V) (t : Nat) (e : Entity) :
    (m.remove t e).am
      = (if ((m.components.getD t default).remove (m.am.get e t)).2 ≠ e
         then (m.am.reset e t).setAcc
                ((m.components.getD t default).remove (m.am.get e t)).2 t
                (m.am.get e t)
         else m.am.reset e t) := by
  simp only [Model.remove, Model.removeFromSystems, AccessMatrix.get]
  split <;> rfl

lemma remove_row_e [Inhabited V] (m : Model N M V) (t : Nat) (e : Entity)
    (p : Nat) (he : e < m.am.acc.length) :
    (m.remove t e).am.get e p
      = ((m.am.acc.getD e []).set t maxAccessor).getD p maxAccessor := by
  rw [AccessMatrix.get, remove_am]
  split
  · next h =>
      simp only [AccessMatrix.reset, AccessMatrix.setAcc]
      rw [getD_set_ne _ _ _ _ _ h, getD_set_self _ _ _ _ he]
  · simp only [AccessMatrix.reset, AccessMatrix.setAcc]
    rw [getD_set_self _ _ _ _ he]

lemma foldl_insertIf_signature (l : List Entity) (s0 : ESystem)
    (q : Entity → Prop) [DecidablePred q] :
    (l.foldl (fun sys e => if q e then sys.insert e else sys) s0).signature
      = s0.signature := by
  induction l generalizing s0 with
  | nil => rfl
  | cons e es ih =>
    rw [List.foldl_cons, ih]
    by_cases hq : q e <;> simp [hq, ESystem.insert]

lemma mem_foldl_insertIf (l : List Entity) (s0 : ESystem)
    (q : Entity → Prop) [DecidablePred q] (x : Entity) :
    x ∈ (l.foldl (fun sys e => if q e then sys.insert e else sys) s0).entities
      ↔ x ∈ s0.entities ∨ (x ∈ l ∧ q x) := by
  induction l generalizing s0 with
  | nil => simp
  | cons e es ih =>
    rw [List.foldl_cons, ih]
    by_cases hq : q e
    · by_cases hx : x = e
      · subst hx; simp [hq, ESystem.insert, mem_setInsert]
      · simp [hq, ESystem.insert, mem_setInsert, hx]
    · by_cases hx : x = e
      · subst hx; simp [hq]
      · simp [hq, hx]

lemma createEntity_fst_am (m : Model N M V) :
    (m.createEntity).1.am = m.am.make.1 := rfl

lemma createEntity_snd (m : Model N M V) :
    (m.createEntity).2 = m.am.make.2 := rfl

lemma removeEntity_am [Inhabited V] (m : Model N M V) (e : Entity) :
    (m.removeEntity e).am
      = ((List.range M).foldl (fun m t => m.checkedRemove t e) m).am.free e :=
  rfl

/-- The C1 failing trace: one declared type, one empty-signature system,
then createEntity, insert type 0, remove type 0. The entity created is slot
id 0. -/
def c1trace : Model 4 1 Nat :=
  let m1 := ((Model.fresh 4 1 Nat).createSystem []).1
  let r := m1.createEntity
  (r.1.insert 0 r.2 7).remove 0 r.2

/-- The C2 failing trace: two declared types; entity 0 owns both; one system
requires both (signature 3) and one requires nothing (signature 0); then
remove type 0 from entity 0. -/
def c2trace : Model 4 2 Nat :=
  let r := (Model.fresh 4 2 Nat).createEntity
  let m1 := (r.1.insert 0 r.2 10).insert 1 r.2 20
  (((m1.createSystem [0, 1]).1.createSystem []).1).remove 0 r.2

/-- A concrete three-entity model owning component 0, used as the C3
witness state: built by three createEntity calls and three inserts. -/
def c3wm : Model 4 2 Nat :=
  let r0 := (Model.fresh 4 2 Nat).createEntity
  let r1 := r0.1.createEntity
  let r2 := r1.1.createEntity
  ((r2.1.insert 0 r0.2 10).insert 0 r1.2 20).insert 0 r2.2 30

/-! ### Claim theorems -/

/-- C5 (counterexample): as stated over every non-empty store and valid
offset, the returned entity can equal the removed element's own owner even
when the offset is not the last one — take the (contract-violating but
representable) store with duplicate owners `[5, 5]` and remove offset 0. -/
theorem c5_counterexample :
    ¬ (((Component.remove (V := Nat) ⟨[10, 20], [5, 5]⟩ 0).2
          = (⟨[10, 20], [5, 5]⟩ : Component Nat).owners.getD 0 0)
        ↔ (0 = (⟨[10, 20], [5, 5]⟩ : Component Nat).owners.length - 1)) := by
  decide

/-- C5 (amended): for a non-empty store with equal-length parallel arrays and
pairwise-distinct owners (as the store/slot invariant guarantees),
`Component::remove a` copies the last element's value and owner into `a` when
`a` is not last, shrinks both arrays by one, and returns the old last owner,
which equals the removed element's own owner exactly when `a` was last. -/
theorem c5_swap_remove_spec {V : Type} [Inhabited V] (c : Component V)
    (a : Nat) (hlen : c.data.length = c.owners.length)
    (ha : a < c.owners.length) (hnd : c.owners.Nodup) :
    (c.remove a).1.data.length = c.data.length - 1 ∧
    (c.remove a).1.owners.length = c.owners.length - 1 ∧
    (c.remove a).2 = c.owners.getLastD 0 ∧
    (a ≠ c.owners.length - 1 →
      (c.remove a).1.data.getD a default = c.data.getLastD default ∧
      (c.remove a).1.owners.getD a 0 = c.owners.getLastD 0) ∧
    ((c.remove a).2 = c.owners.getD a 0 ↔ a = c.owners.length - 1) := by
  refine ⟨by simp [Component.remove], by simp [Component.remove], rfl, ?_, ?_⟩
  · intro hne
    constructor
    · rw [Component.remove]
      rw [getD_dropLast _ _ _ (by simp; omega), getD_set_self _ _ _ _ (by omega)]
    · rw [Component.remove]
      rw [getD_dropLast _ _ _ (by simp; omega), getD_set_self _ _ _ _ (by omega)]
  · have h2 : (c.remove a).2 = c.owners.getD (c.owners.length - 1) 0 := by
      simp only [Component.remove]
      exact getLastD_eq_getD _ _
    rw [h2]
    constructor
    · intro hEq
      by_contra hne
      exact getD_nodup_ne hnd
        (show c.owners.length - 1 < c.owners.length by omega) ha (by omega) hEq
    · intro hEq; rw [hEq]

/-- C5 witness. -/
theorem c5_swap_remove_spec_witness :
    (((⟨[10, 20, 30], [4, 7, 9]⟩ : Component Nat).data.length
        = (⟨[10, 20, 30], [4, 7, 9]⟩ : Component Nat).owners.length)
      ∧ 0 < (⟨[10, 20, 30], [4, 7, 9]⟩ : Component Nat).owners.length
      ∧ (⟨[10, 20, 30], [4, 7, 9]⟩ : Component Nat).owners.Nodup)
    ∧ (Component.remove (V := Nat) ⟨[10, 20, 30], [4, 7, 9]⟩ 0).1.data.length
        = (⟨[10, 20, 30], [4, 7, 9]⟩ : Component Nat).data.length - 1 :=
  ⟨⟨by decide, by decide, by decide⟩,
   (c5_swap_remove_spec ⟨[10, 20, 30], [4, 7, 9]⟩ 0 (by decide) (by decide)
      (by decide)).1⟩

/-- C9: on a duplicate-free working set (the `std::set` representation
invariant), `System::insert` and `System::remove` are idempotent and affect
no other entity's membership. -/
theorem c9_system_edits_idempotent (s : ESystem) (e : Entity)
    (hnd : s.entities.Nodup) :
    (s.insert e).insert e = s.insert e ∧
    (s.remove e).remove e = s.remove e ∧
    (∀ x, x ≠ e → (x ∈ (s.insert e).entities ↔ x ∈ s.entities)) ∧
    (∀ x, x ≠ e → (x ∈ (s.remove e).entities ↔ x ∈ s.entities)) := by
  refine ⟨?_, ?_, ?_, ?_⟩
  · simp [ESystem.insert, setInsert_idem]
  · have : e ∉ s.entities.erase e := hnd.not_mem_erase
    simp [ESystem.remove, List.erase_of_not_mem this]
  · intro x hx
    simp [ESystem.insert, mem_setInsert, hx]
  · intro x hx
    simp [ESystem.remove, List.mem_erase_of_ne hx]

/-- C9 witness. -/
theorem c9_system_edits_idempotent_witness :
    ((⟨0, [1, 3]⟩ : ESystem).entities.Nodup)
    ∧ ((⟨0, [1, 3]⟩ : ESystem).insert 2).insert 2
        = (⟨0, [1, 3]⟩ : ESystem).insert 2 :=
  ⟨by decide, (c9_system_edits_idempotent ⟨0, [1, 3]⟩ 2 (by decide)).1⟩

/-- C10: `Model::removeSystem` on a handle that is not a key of the system
map leaves the whole model unchanged. -/
theorem c10_removeSystem_unknown_noop (m : Model N M V) (hSys : Nat)
    (h : ∀ p ∈ m.systems, p.1 ≠ hSys) : m.removeSystem hSys = m := by
  rw [Model.removeSystem, mapErase_of_not_mem hSys m.systems h]

/-- C1: the system-membership invariant fails on the code. With one declared
type and one empty-signature system, the sequence createSystem; createEntity;
insert; remove leaves the entity spawned with a signature that satisfies the
system, yet absent from the system's working set: `Model::remove<T>` calls
`removeFromSystems_` with the singleton signature of `T` and the subset test
`(s & sSys) == sSys`, which wrongly evicts the entity from empty-signature
systems (and, dually, fails to evict it from systems requiring `T` plus more,
see the C2 theorem). -/
theorem c1_membership_invariant_violated :
    0 ∈ c1trace.spawned
    ∧ c1trace.computeSignatureE 0
        &&& (c1trace.systems.getD 0 (0, default)).2.signature
        = (c1trace.systems.getD 0 (0, default)).2.signature
    ∧ 0 ∉ (c1trace.systems.getD 0 (0, default)).2.entities := by
  decide

/-- C2: `Model::remove<T>` does not unregister the entity from every system
requiring `T`. With two declared types, an entity owning both, a system
requiring both (signature 3) and a system requiring nothing (signature 0),
removing type 0 leaves the entity inside the signature-3 system (which
requires type 0) and evicts it from the signature-0 system (which does not
require type 0 and is still satisfied): the subset test in
`removeFromSystems_` points the wrong way. -/
theorem c2_remove_system_update_violated :
    ((c2trace.systems.getD 0 (0, default)).2.signature = 3
      ∧ c2trace.am.has 0 0 = false
      ∧ 0 ∈ (c2trace.systems.getD 0 (0, default)).2.entities)
    ∧ ((c2trace.systems.getD 1 (0, default)).2.signature = 0
      ∧ 0 ∈ c2trace.spawned
      ∧ 0 ∉ (c2trace.systems.getD 1 (0, default)).2.entities) := by
  decide

/-- C8: after `removeEntity e` immediately followed by `createEntity`, the
entity handed back (the recycled slot `e`) reports absent for every declared
component type — and in fact for every access-point index. -/
theorem c8_slot_reuse_absent {V : Type} [Inhabited V] (m : Model N M V)
    (e : Entity) (p : Nat) :
    ((m.removeEntity e).createEntity).1.am.has
      ((m.removeEntity e).createEntity).2 p = false := by
  rw [createEntity_fst_am, createEntity_snd, removeEntity_am]
  exact has_after_free_make _ e p

/-- C4: inserting value `v` for type `t` on entity `e` and then accessing
type `t` on `e` returns `v`, for any valid slot and declared type. -/
theorem c4_insert_access_roundtrip {V : Type} [Inhabited V] (m : Model N M V)
    (t : Nat) (e : Entity) (v : V)
    (he : e < m.am.acc.length)
    (hrow : t < (m.am.acc.getD e []).length)
    (hct : t < m.components.length) :
    (m.insert t e v).access t e = v := by
  simp only [Model.insert, Model.access, Model.insertInSystems,
    Component.insert, Component.access, AccessMatrix.setAcc, AccessMatrix.get]
  rw [getD_set_self _ _ _ _ he, getD_set_self _ _ _ _ hrow,
    getD_set_self _ _ _ _ hct, getD_append_length]

/-- C4 witness. -/
theorem c4_insert_access_roundtrip_witness :
    (0 < ((Model.fresh 4 2 Nat).createEntity).1.am.acc.length
      ∧ 0 < (((Model.fresh 4 2 Nat).createEntity).1.am.acc.getD 0 []).length
      ∧ 0 < ((Model.fresh 4 2 Nat).createEntity).1.components.length)
    ∧ (((Model.fresh 4 2 Nat).createEntity).1.insert 0 0 7).access 0 0 = 7 :=
  ⟨⟨by decide, by decide, by decide⟩,
   c4_insert_access_roundtrip ((Model.fresh 4 2 Nat).createEntity).1 0 0 7
     (by decide) (by decide) (by decide)⟩

/-- C10 witness. -/
theorem c10_removeSystem_unknown_noop_witness :
    (∀ p ∈ ((Model.fresh 2 1 Nat).createSystem []).1.systems, p.1 ≠ 5)
    ∧ ((Model.fresh 2 1 Nat).createSystem []).1.removeSystem 5
        = ((Model.fresh 2 1 Nat).createSystem []).1 :=
  ⟨by decide, c10_removeSystem_unknown_noop _ 5 (by decide)⟩

/-- C7: `insert<T>(e, v)` sets bit `t` of the entity's signature and
`remove<T>(e)` clears it; in both cases every other bit of the entity's
signature is unchanged. -/
theorem c7_signature_bit_edits {V : Type} [Inhabited V] (m : Model N M V)
    (t : Nat) (e : Entity) (v : V) (ht : t < M) (he : e < m.am.acc.length)
    (hrow : (m.am.acc.getD e []).length = M)
    (hlen : (m.components.getD t default).data.length ≠ maxAccessor) :
    (((m.insert t e v).computeSignatureE e).testBit t = true
      ∧ ∀ p, p ≠ t →
          ((m.insert t e v).computeSignatureE e).testBit p
            = (m.computeSignatureE e).testBit p)
    ∧ (((m.remove t e).computeSignatureE e).testBit t = false
      ∧ ∀ p, p ≠ t →
          ((m.remove t e).computeSignatureE e).testBit p
            = (m.computeSignatureE e).testBit p) := by
  have hrowt : t < (m.am.acc.getD e []).length := by omega
  refine ⟨⟨?_, ?_⟩, ?_, ?_⟩
  · rw [computeSignatureE_testBit]
    simp only [AccessMatrix.has]
    rw [insert_row_e m t e v t he, getD_set_self _ _ _ _ hrowt]
    simp only [Bool.and_eq_true, decide_eq_true_eq, bne_iff_ne, ne_eq]
    exact ⟨ht, hlen⟩
  · intro p hp
    rw [computeSignatureE_testBit, computeSignatureE_testBit]
    congr 1
    simp only [AccessMatrix.has]
    rw [insert_row_e m t e v p he, getD_set_ne _ _ _ _ _ (Ne.symm hp)]
    rfl
  · rw [computeSignatureE_testBit]
    simp only [AccessMatrix.has]
    rw [remove_row_e m t e t he, getD_set_self _ _ _ _ hrowt]
    simp
  · intro p hp
    rw [computeSignatureE_testBit, computeSignatureE_testBit]
    congr 1
    simp only [AccessMatrix.has]
    rw [remove_row_e m t e p he, getD_set_ne _ _ _ _ _ (Ne.symm hp)]
    rfl

/-- C7 witness. -/
theorem c7_signature_bit_edits_witness :
    (0 < 2
      ∧ 0 < ((Model.fresh 4 2 Nat).createEntity).1.am.acc.length
      ∧ (((Model.fresh 4 2 Nat).createEntity).1.am.acc.getD 0 []).length = 2
      ∧ (((Model.fresh 4 2 Nat).createEntity).1.components.getD 0
          default).data.length ≠ maxAccessor)
    ∧ ((((Model.fresh 4 2 Nat).createEntity).1.insert 0 0
          7).computeSignatureE 0).testBit 0 = true :=
  ⟨⟨by decide, by decide, by decide, by decide⟩,
   (c7_signature_bit_edits ((Model.fresh 4 2 Nat).createEntity).1 0 0 7
      (by decide) (by decide) (by decide) (by decide)).1.1⟩

/-- C6: `createSystem ts` registers a system whose signature is the union of
the bits of `ts` and whose working set, immediately after the call, holds
exactly the spawned entities whose signature is a superset of it. -/
theorem c6_createSystem_seeded (m : Model N M V) (ts : List Nat) (x : Entity) :
    ((m.createSystem ts).1.systems.getLastD (0, default)).2.signature
        = computeSignatureTs ts
    ∧ (x ∈ ((m.createSystem ts).1.systems.getLastD (0, default)).2.entities
        ↔ x ∈ m.spawned
          ∧ m.computeSignatureE x &&& computeSignatureTs ts
              = computeSignatureTs ts) := by
  have hlast : (m.createSystem ts).1.systems.getLastD (0, default)
      = (m.nextHandle, m.spawned.foldl
          (fun sys e =>
            if m.computeSignatureE e &&& computeSignatureTs ts
                = computeSignatureTs ts
            then sys.insert e else sys)
          ({ signature := computeSignatureTs ts, entities := [] } :
            ESystem)) := by
    simp only [Model.createSystem]
    exact List.getLastD_concat _ _ _
  rw [hlast]
  constructor
  · exact foldl_insertIf_signature m.spawned _ _
  · rw [mem_foldl_insertIf]
    simp

lemma mem_index {l : List Nat} {x : Nat} (h : x ∈ l) :
    ∃ i, i < l.length ∧ l.getD i 0 = x := by
  obtain ⟨i, hi, hg⟩ := List.mem_iff_getElem.mp h
  exact ⟨i, hi, by rw [List.getD_eq_getElem l 0 hi]; exact hg⟩

lemma remove_components [Inhabited V] (m : Model N M V) (t : Nat)
    (e : Entity) :
    (m.remove t e).components
      = m.components.set t
          ((m.components.getD t default).remove (m.am.get e t)).1 := by
  simp only [Model.remove, Model.removeFromSystems]
  split <;> rfl

/-- C3: on a state satisfying the store/slot invariant for type `t` (parallel
arrays of equal length, pairwise-distinct owners, every owner's slot accessor
for `t` pointing back at its offset, owner rows present and wide enough),
`remove<T>(e)` leaves `access<T>(e')` unchanged for every other owner `e'`:
the relocated entity's accessor is patched to the new offset. -/
theorem c3_swap_remove_preserves_access {V : Type} [Inhabited V]
    (m : Model N M V) (t : Nat) (e e' : Entity)
    (hct : t < m.components.length)
    (hlen : (m.components.getD t default).data.length
        = (m.components.getD t default).owners.length)
    (hnd : (m.components.getD t default).owners.Nodup)
    (hcons : ∀ i < (m.components.getD t default).owners.length,
        m.am.get ((m.components.getD t default).owners.getD i 0) t = i)
    (hslots : ∀ i < (m.components.getD t default).owners.length,
        (m.components.getD t default).owners.getD i 0 < m.am.acc.length)
    (hrows : ∀ i < (m.components.getD t default).owners.length,
        t < (m.am.acc.getD
              ((m.components.getD t default).owners.getD i 0) []).length)
    (he : e ∈ (m.components.getD t default).owners)
    (he' : e' ∈ (m.components.getD t default).owners)
    (hne : e' ≠ e) :
    (m.remove t e).access t e' = m.access t e' := by
  obtain ⟨a, ha, hga⟩ := mem_index he
  obtain ⟨b, hb, hgb⟩ := mem_index he'
  have haet : m.am.get e t = a := by rw [← hga]; exact hcons a ha
  have hbet : m.am.get e' t = b := by rw [← hgb]; exact hcons b hb
  have hab : b ≠ a := fun hEq => hne (by rw [← hgb, hEq, hga])
  have hrep : ((m.components.getD t default).remove (m.am.get e t)).2
      = (m.components.getD t default).owners.getD
          ((m.components.getD t default).owners.length - 1) 0 := by
    have h0 : ((m.components.getD t default).remove (m.am.get e t)).2
        = (m.components.getD t default).owners.getLastD 0 := rfl
    rw [h0, getLastD_eq_getD]
  have hbefore : m.access t e'
      = (m.components.getD t default).data.getD b default := by
    rw [Model.access, Component.access, hbet]
  have hafter : (m.remove t e).access t e'
      = ((m.components.getD t default).remove (m.am.get e t)).1.data.getD
          ((m.remove t e).am.get e' t) default := by
    rw [Model.access, Component.access, remove_components,
      getD_set_self _ _ _ _ hct]
  have hdata : ((m.components.getD t default).remove (m.am.get e t)).1.data
      = ((m.components.getD t default).data.set a
          ((m.components.getD t default).data.getLastD default)).dropLast := by
    rw [haet]; rfl
  by_cases hal : a = (m.components.getD t default).owners.length - 1
  · -- the removed entity owned the last offset: no relocation happens
    have hrepe : ((m.components.getD t default).remove (m.am.get e t)).2
        = e := by rw [hrep, ← hal, hga]
    have ham : (m.remove t e).am = m.am.reset e t := by
      rw [remove_am, if_neg (not_not_intro hrepe)]
    have hget' : (m.remove t e).am.get e' t = b := by
      rw [ham, AccessMatrix.reset, AccessMatrix.setAcc, AccessMatrix.get]
      rw [getD_set_ne _ _ _ _ _ (Ne.symm hne)]
      exact hbet
    rw [hafter, hget', hdata,
      getD_dropLast _ _ _ (by simp only [List.length_set]; omega),
      getD_set_ne _ _ _ _ _ (by omega), hbefore]
  · -- a strictly interior offset: the last owner is relocated to offset a
    have hrepne : ((m.components.getD t default).remove (m.am.get e t)).2
        ≠ e := by
      rw [hrep, ← hga]
      exact getD_nodup_ne hnd (by omega) ha (by omega)
    have ham : (m.remove t e).am
        = (m.am.reset e t).setAcc
            ((m.components.getD t default).owners.getD
              ((m.components.getD t default).owners.length - 1) 0) t a := by
      rw [remove_am, if_pos hrepne, hrep, haet]
    by_cases hbl : e' = (m.components.getD t default).owners.getD
        ((m.components.getD t default).owners.length - 1) 0
    · -- e' is the relocated last owner: its accessor was patched to a
      have hb1 : b = (m.components.getD t default).owners.length - 1 := by
        by_contra hx
        exact getD_nodup_ne hnd hb (by omega) hx (by rw [hgb, hbl])
      have hENe : e ≠ (m.components.getD t default).owners.getD
          ((m.components.getD t default).owners.length - 1) 0 :=
        Ne.symm (hrep ▸ hrepne)
      have hget' : (m.remove t e).am.get e' t = a := by
        rw [ham, hbl, AccessMatrix.reset, AccessMatrix.setAcc,
          AccessMatrix.setAcc, AccessMatrix.get]
        rw [getD_set_self _ _ _ _
          (by simp only [List.length_set]
              exact hslots ((m.components.getD t default).owners.length - 1)
                (by omega))]
        rw [getD_set_ne _ _ _ _ _ hENe]
        exact getD_set_self _ _ _ _
          (hrows ((m.components.getD t default).owners.length - 1) (by omega))
      rw [hafter, hget', hdata,
        getD_dropLast _ _ _ (by simp only [List.length_set]; omega),
        getD_set_self _ _ _ _ (by omega),
        hbefore, hb1, getLastD_eq_getD, hlen]
    · -- e' is neither the removed nor the relocated owner: fully untouched
      have hbn1 : b ≠ (m.components.getD t default).owners.length - 1 :=
        fun hx => hbl (by rw [← hgb, hx])
      have hget' : (m.remove t e).am.get e' t = b := by
        rw [ham, AccessMatrix.setAcc, AccessMatrix.get]
        rw [getD_set_ne _ _ _ _ _ (fun hEq => hbl hEq.symm)]
        rw [AccessMatrix.reset, AccessMatrix.setAcc]
        rw [getD_set_ne _ _ _ _ _ (Ne.symm hne)]
        exact hbet
      rw [hafter, hget', hdata,
        getD_dropLast _ _ _ (by simp only [List.length_set]; omega),
        getD_set_ne _ _ _ _ _ (by omega), hbefore]

/-- C3 witness. -/
theorem c3_swap_remove_preserves_access_witness :
    (0 < c3wm.components.length
      ∧ (c3wm.components.getD 0 default).data.length
          = (c3wm.components.getD 0 default).owners.length
      ∧ (c3wm.components.getD 0 default).owners.Nodup
      ∧ (∀ i < (c3wm.components.getD 0 default).owners.length,
          c3wm.am.get ((c3wm.components.getD 0 default).owners.getD i 0) 0 = i)
      ∧ (∀ i < (c3wm.components.getD 0 default).owners.length,
          (c3wm.components.getD 0 default).owners.getD i 0
            < c3wm.am.acc.length)
      ∧ (∀ i < (c3wm.components.getD 0 default).owners.length,
          0 < (c3wm.am.acc.getD
                ((c3wm.components.getD 0 default).owners.getD i 0) []).length)
      ∧ 0 ∈ (c3wm.components.getD 0 default).owners
      ∧ 1 ∈ (c3wm.components.getD 0 default).owners
      ∧ (1 : Entity) ≠ 0)
    ∧ (c3wm.remove 0 0).access 0 1 = c3wm.access 0 1 :=
  ⟨⟨by decide, by decide, by decide, by decide, by decide, by decide,
    by decide, by decide, by decide⟩,
   c3_swap_remove_preserves_access c3wm 0 0 1 (by decide) (by decide)
     (by decide) (by decide) (by decide) (by decide) (by decide) (by decide)
     (by decide)⟩

end Yobecs
